import Mathlib

/-!
Verification of the McServer lock / sync core.

Shallow embedding of:
* `src/sync/lock.ts` (`LockManager`): acquire / release / forceRelease /
  refreshLock / getState / isLockHolder / isAvailable against the GitHub
  contents API, modelled as a single versioned object store with
  conditional writes (sha tokens), plus a network oracle which decides,
  per HTTP round-trip, whether the call succeeds or fails transiently.
* `src/sync/sync.ts` (`SyncManager`): acquireAndSync / syncAndRelease,
  with git pull/push and filesystem effects supplied as oracles.
* `src/sync/git.ts` (`GitManager.getHistory` / `extractProfileId`).

Times are integers (milliseconds since epoch); the content-version token
(GitHub blob sha) is a natural number freshened by a counter.
-/

namespace McServer

/-- Outcome of one remote HTTP round-trip: `ok` means the remote answered
normally, `fail` means a transient failure (network error or a status that
axios rejects, i.e. any non-2xx outside the explicitly validated set). -/
inductive NetOutcome
  | ok
  | fail
deriving DecidableEq, Repr

/-- Consume the next network outcome; an exhausted oracle behaves as `ok`. -/
def netStep : List NetOutcome → NetOutcome × List NetOutcome
  | [] => (.ok, [])
  | o :: rest => (o, rest)

/-- The JSON object stored in the lock file (`LockFileContent` in lock.ts). -/
structure LockFileContent where
  locked : Bool
  lockedBy : String
  lockedAt : Int
  machineId : String
  reason : String
  expiresAt : Int
  sessionId : String
deriving DecidableEq, Repr

/-- Raw bytes stored at the lock path: either a parseable lock record or
garbage that makes `JSON.parse` throw. -/
inductive StoredContent
  | valid (c : LockFileContent)
  | garbage (raw : String)
deriving DecidableEq, Repr

/-- One stored object of the contents API: content plus its version token. -/
structure StoredObject where
  content : StoredContent
  sha : Nat
deriving DecidableEq, Repr

/-- The remote store for the single lock object. `nextSha` freshens version
tokens on every successful write. -/
structure Store where
  obj : Option StoredObject
  nextSha : Nat
deriving DecidableEq, Repr

/-- `LockState` as returned by `LockManager.getState` (types/index.ts). -/
structure LockState where
  locked : Bool
  lockedBy : Option String
  lockedAt : Option Int
  machineId : Option String
  reason : Option String
  expiresAt : Option Int
deriving DecidableEq, Repr

/-- The all-null unlocked state getState returns on 404 and on any error. -/
def unlockedState : LockState :=
  { locked := false, lockedBy := none, lockedAt := none, machineId := none
    reason := none, expiresAt := none }

/-- `LOCK_TIMEOUT` from src/constants (1 hour in milliseconds). -/
def LOCK_TIMEOUT : Int := 3600000

/-- `LOCK_REFRESH_INTERVAL` from src/constants (5 minutes in milliseconds). -/
def LOCK_REFRESH_INTERVAL : Int := 300000

/-- Local state of a `LockManager` instance: identity plus the cached lock
and whether the refresh interval timer is running. -/
structure LockMgr where
  machineId : String
  sessionId : String
  hostname : String
  currentLock : Option LockState
  refreshOn : Bool
deriving DecidableEq, Repr

/-- `LockManager.getState`: GET the lock object (accepting 200 and 404).
404 and every thrown error (network failure, unexpected status, JSON parse
failure on garbage content) are all mapped to the unlocked state. -/
def getState (s : Store) (net : List NetOutcome) : LockState × List NetOutcome :=
  let o := (netStep net).1
  let rest := (netStep net).2
  match o with
  | .fail => (unlockedState, rest)
  | .ok =>
    match s.obj with
    | none => (unlockedState, rest)
    | some ob =>
      match ob.content with
      | .garbage _ => (unlockedState, rest)
      | .valid c =>
        ({ locked := c.locked, lockedBy := some c.lockedBy, lockedAt := some c.lockedAt
           machineId := some c.machineId, reason := some c.reason
           expiresAt := some c.expiresAt }, rest)

/-- `LockManager.writeLockFile`: GET the current sha (a thrown GET, 404
included, just leaves the sha undefined), then PUT with that sha.  A PUT
whose token does not match the stored object is the conditional-write
rejection of the contents API (spec section 6: 2xx or conflict); the code
maps it to `false`.  A transient PUT failure is rethrown (`.error`). -/
def writeLockFile (s : Store) (content : LockFileContent) (net : List NetOutcome) :
    Except String Bool × Store × List NetOutcome :=
  let o1 := (netStep net).1
  let net1 := (netStep net).2
  let sha : Option Nat :=
    match o1 with
    | .fail => none
    | .ok =>
      match s.obj with
      | none => none
      | some ob => some ob.sha
  let o2 := (netStep net1).1
  let net2 := (netStep net1).2
  match o2 with
  | .fail => (.error "network", s, net2)
  | .ok =>
    match s.obj, sha with
    | none, none =>
      (.ok true, { obj := some { content := .valid content, sha := s.nextSha }
                   nextSha := s.nextSha + 1 }, net2)
    | some ob, some h =>
      if h = ob.sha then
        (.ok true, { obj := some { content := .valid content, sha := s.nextSha }
                     nextSha := s.nextSha + 1 }, net2)
      else (.ok false, s, net2)
    | _, _ => (.ok false, s, net2)

/-- `LockManager.deleteLockFile`: GET the sha then DELETE with it.  A GET
that finds nothing throws a 404 which the catch maps to `true` (already
deleted); transient failures of either round-trip are rethrown. -/
def deleteLockFile (s : Store) (net : List NetOutcome) :
    Except String Bool × Store × List NetOutcome :=
  let o1 := (netStep net).1
  let net1 := (netStep net).2
  match o1 with
  | .fail => (.error "network", s, net1)
  | .ok =>
    match s.obj with
    | none => (.ok true, s, net1)
    | some _ =>
      let o2 := (netStep net1).1
      let net2 := (netStep net1).2
      match o2 with
      | .fail => (.error "network", s, net2)
      | .ok => (.ok true, { s with obj := none }, net2)

/-- Result of a LockManager operation: boolean outcome, updated local
manager state, updated remote store, remaining network oracle. -/
structure OpResult where
  result : Bool
  mgr : LockMgr
  store : Store
  net : List NetOutcome
deriving DecidableEq, Repr

/-- The lock record `acquire` writes on a win. -/
def newLockContent (mgr : LockMgr) (now : Int) (reason : String) : LockFileContent :=
  { locked := true, lockedBy := mgr.hostname, lockedAt := now
    machineId := mgr.machineId, reason := reason
    expiresAt := now + LOCK_TIMEOUT, sessionId := mgr.sessionId }

/-- `LockManager.forceRelease`: stop the refresh timer, delete the record
unconditionally; a thrown delete is caught and reported as `false` (and in
that case `currentLock` is not cleared, matching the code order). -/
def forceRelease (mgr : LockMgr) (s : Store) (net : List NetOutcome) : OpResult :=
  let mgr1 : LockMgr := { mgr with refreshOn := false }
  match deleteLockFile s net with
  | (.ok b, s1, net1) =>
    { result := b, mgr := { mgr1 with currentLock := none }, store := s1, net := net1 }
  | (.error _, s1, net1) =>
    { result := false, mgr := mgr1, store := s1, net := net1 }

/-- The tail of `LockManager.acquire`: build the new record and write it;
on success cache it and start the refresh timer.  A thrown write makes the
surrounding catch return `false`. -/
def acquireCreate (mgr : LockMgr) (s : Store) (now : Int) (reason : String)
    (net : List NetOutcome) : OpResult :=
  let content := newLockContent mgr now reason
  match writeLockFile s content net with
  | (.ok true, s1, net1) =>
    { result := true
      mgr := { mgr with
        currentLock := some
          { locked := true, lockedBy := some mgr.hostname, lockedAt := some now
            machineId := some mgr.machineId, reason := some reason
            expiresAt := some (now + LOCK_TIMEOUT) }
        refreshOn := true }
      store := s1, net := net1 }
  | (.ok false, s1, net1) => { result := false, mgr := mgr, store := s1, net := net1 }
  | (.error _, s1, net1) => { result := false, mgr := mgr, store := s1, net := net1 }

/-- `LockManager.acquire`: read the state; if locked and expired, force
release (result ignored) and fall through to creation; if locked by this
machine, re-adopt; if locked by another, return false; otherwise create. -/
def acquire (mgr : LockMgr) (s : Store) (now : Int) (reason : String)
    (net : List NetOutcome) : OpResult :=
  let st := (getState s net).1
  let net1 := (getState s net).2
  if st.locked then
    match st.expiresAt with
    | some e =>
      if e < now then
        let fr := forceRelease mgr s net1
        acquireCreate fr.mgr fr.store now reason fr.net
      else if st.machineId = some mgr.machineId then
        { result := true, mgr := { mgr with currentLock := some st, refreshOn := true }
          store := s, net := net1 }
      else
        { result := false, mgr := mgr, store := s, net := net1 }
    | none =>
      if st.machineId = some mgr.machineId then
        { result := true, mgr := { mgr with currentLock := some st, refreshOn := true }
          store := s, net := net1 }
      else
        { result := false, mgr := mgr, store := s, net := net1 }
  else
    acquireCreate mgr s now reason net1

/-- `LockManager.release`: stop the refresh timer first, re-read the state;
absent means already released (true); a different machine is refused
(false); otherwise delete (a thrown delete is caught as false). -/
def release (mgr : LockMgr) (s : Store) (net : List NetOutcome) : OpResult :=
  let mgr0 : LockMgr := { mgr with refreshOn := false }
  let st := (getState s net).1
  let net1 := (getState s net).2
  if st.locked then
    if st.machineId = some mgr.machineId then
      match deleteLockFile s net1 with
      | (.ok b, s1, net2) =>
        if b then
          { result := true, mgr := { mgr0 with currentLock := none }, store := s1, net := net2 }
        else
          { result := false, mgr := mgr0, store := s1, net := net2 }
      | (.error _, s1, net2) =>
        { result := false, mgr := mgr0, store := s1, net := net2 }
    else
      { result := false, mgr := mgr0, store := s, net := net1 }
  else
    { result := true, mgr := { mgr0 with currentLock := none }, store := s, net := net1 }

/-- `LockManager.refreshLock`: if the record is gone or held by another
machine, stop the refresh loop and write nothing; otherwise rewrite the
record with a fresh `expiresAt`, keeping holder fields from the read state
(write result and any thrown error are ignored). -/
def refreshLock (mgr : LockMgr) (s : Store) (now : Int) (net : List NetOutcome) :
    LockMgr × Store × List NetOutcome :=
  let st := (getState s net).1
  let net1 := (getState s net).2
  if st.locked = false ∨ st.machineId ≠ some mgr.machineId then
    ({ mgr with refreshOn := false }, s, net1)
  else
    let content : LockFileContent :=
      { locked := true, lockedBy := st.lockedBy.getD "", lockedAt := st.lockedAt.getD 0
        machineId := mgr.machineId, reason := st.reason.getD ""
        expiresAt := now + LOCK_TIMEOUT, sessionId := mgr.sessionId }
    match writeLockFile s content net1 with
    | (_, s1, net2) => (mgr, s1, net2)

/-- `LockManager.isLockHolder`. -/
def isLockHolder (mgr : LockMgr) (s : Store) (net : List NetOutcome) :
    Bool × List NetOutcome :=
  let st := (getState s net).1
  (st.locked && decide (st.machineId = some mgr.machineId), (getState s net).2)

/-- `LockManager.isAvailable`: available when unlocked, expired, or held by
this machine. -/
def isAvailable (mgr : LockMgr) (s : Store) (now : Int) (net : List NetOutcome) :
    Bool × List NetOutcome :=
  let st := (getState s net).1
  let net1 := (getState s net).2
  if st.locked = false then (true, net1)
  else
    match st.expiresAt with
    | some e =>
      if e < now then (true, net1)
      else if st.machineId = some mgr.machineId then (true, net1)
      else (false, net1)
    | none =>
      if st.machineId = some mgr.machineId then (true, net1)
      else (false, net1)

/-- Outcome of a git pull or push (`GitManager.pull` / `GitManager.push`
catch every error internally and return a `SyncResult`, never throwing). -/
inductive GitOutcome
  | ok (commitHash : Option String) (filesChanged : Nat)
  | err (msg : String)
deriving DecidableEq, Repr

/-- `SyncResult` (types/index.ts). -/
structure SyncResult where
  success : Bool
  error : Option String
  commitHash : Option String
  filesChanged : Option Nat
deriving DecidableEq, Repr

/-- In-memory `SyncState` of the SyncManager. -/
structure SyncState where
  lastSyncTime : Option Int
  lastCommitHash : Option String
  pendingChanges : Bool
  syncInProgress : Bool
  lastError : Option String
deriving DecidableEq, Repr

/-- `SyncStateFile`: the shape persisted to disk by `saveState`. -/
structure SyncStateFile where
  lastSyncTime : Option Int
  lastCommitHash : Option String
  lastError : Option String
  profileId : Option String
deriving DecidableEq, Repr

/-- Local state of a `SyncManager` instance.  `backups` records the
backups created so far as (profileId, kind) pairs; `disk` is the persisted
state file written by `saveState`. -/
structure SyncMgr where
  lock : LockMgr
  state : SyncState
  profileId : Option String
  backups : List (String × String)
  disk : Option SyncStateFile
deriving DecidableEq, Repr

/-- `SyncManager.saveState`: persist the current state to disk. -/
def saveStateFile (sm : SyncMgr) : SyncMgr :=
  { sm with disk := some {
        lastSyncTime := sm.state.lastSyncTime,
        lastCommitHash := sm.state.lastCommitHash,
        lastError := sm.state.lastError,
        profileId := sm.profileId } }

/-- Result of a SyncManager operation. -/
structure SyncOpResult where
  result : SyncResult
  sm : SyncMgr
  store : Store
  net : List NetOutcome
deriving DecidableEq, Repr

/-- Shorthand for a failed `SyncResult`. -/
def syncFail (msg : String) : SyncResult :=
  { success := false, error := some msg, commitHash := none, filesChanged := none }

/-- `SyncManager.acquireAndSync`: check availability, acquire the lock,
pull; on pull failure release the just-acquired lock and fail.  `pullRes`
is the pull outcome; `worldExists`/`integrityOk` feed the integrity check
(which only logs); `integrityThrow`/`saveThrow` model a filesystem
exception thrown in the integrity phase or in `saveState`, both handled by
the catch block (record the error, release the lock, fail). -/
def acquireAndSync (sm0 : SyncMgr) (store : Store) (profileId : String) (now : Int)
    (net : List NetOutcome) (pullRes : GitOutcome)
    (worldExists integrityOk : Bool) (integrityThrow saveThrow : Option String) :
    SyncOpResult :=
  let sm : SyncMgr := { sm0 with profileId := some profileId }
  let avail := (isAvailable sm.lock store now net).1
  let net1 := (isAvailable sm.lock store now net).2
  if avail = false then
    let st := (getState store net1).1
    let net2 := (getState store net1).2
    { result := syncFail ("Server is locked by " ++ st.lockedBy.getD "null" ++
        " since " ++ toString (st.lockedAt.getD 0)),
      sm := sm, store := store, net := net2 }
  else
    let acq := acquire sm.lock store now ("Hosting profile: " ++ profileId) net1
    let sm1 : SyncMgr := { sm with lock := acq.mgr }
    if acq.result = false then
      { result := syncFail "Failed to acquire lock - another host may have just started",
        sm := sm1, store := acq.store, net := acq.net }
    else
      let sm2 : SyncMgr := { sm1 with state := { sm1.state with syncInProgress := true } }
      match pullRes with
      | .err e =>
        let rel := release sm2.lock acq.store acq.net
        let sm3 : SyncMgr :=
          { sm2 with
            lock := rel.mgr,
            state := { sm2.state with syncInProgress := false } }
        { result := syncFail ("Failed to download world: " ++ e),
          sm := sm3, store := rel.store, net := rel.net }
      | .ok hash files =>
        -- integrity check: the result is only logged; `worldExists` and
        -- `integrityOk` have no effect beyond a warning in the source
        let _ := worldExists
        let _ := integrityOk
        match integrityThrow with
        | some msg =>
          let sm3 : SyncMgr :=
            { sm2 with
              state := { sm2.state with syncInProgress := false, lastError := some msg } }
          let rel := release sm3.lock acq.store acq.net
          { result := syncFail msg,
            sm := { sm3 with lock := rel.mgr }, store := rel.store, net := rel.net }
        | none =>
          let sm3 : SyncMgr :=
            { sm2 with
              state :=
                { sm2.state with
                  lastSyncTime := some now,
                  lastCommitHash := hash,
                  syncInProgress := false,
                  lastError := none } }
          match saveThrow with
          | some msg =>
            let sm4 : SyncMgr :=
              { sm3 with state := { sm3.state with lastError := some msg } }
            let rel := release sm4.lock acq.store acq.net
            { result := syncFail msg,
              sm := { sm4 with lock := rel.mgr }, store := rel.store, net := rel.net }
          | none =>
            let sm4 := saveStateFile sm3
            { result := { success := true, error := none, commitHash := hash,
                          filesChanged := some files },
              sm := sm4, store := acq.store, net := acq.net }

/-- The commit message built by `syncAndRelease`:
a [profile:id] marker, a human summary and the world content hash. -/
def commitMessage (profileId ts worldHash : String) : String :=
  "[profile:" ++ profileId ++ "] World save - " ++ ts ++ "\n\nHash: " ++ worldHash

/-- `SyncManager.syncAndRelease`: verify holdership, create a pre-shutdown
backup, compute the world hash, push, then release (release result
ignored) and persist state.  `backupThrow` models a filesystem exception
from `createBackup` (handled by the catch block); `saveThrow` models one
from `saveState`.  On push failure the function returns early: no release,
no state-file write. -/
def syncAndRelease (sm0 : SyncMgr) (store : Store) (profileId : String) (now : Int)
    (net : List NetOutcome) (backupThrow : Option String) (worldHash : String)
    (pushRes : GitOutcome) (saveThrow : Option String) : SyncOpResult :=
  let isH := (isLockHolder sm0.lock store net).1
  let net1 := (isLockHolder sm0.lock store net).2
  if isH = false then
    { result := syncFail "Cannot sync - we do not hold the lock",
      sm := sm0, store := store, net := net1 }
  else
    let sm1 : SyncMgr := { sm0 with state := { sm0.state with syncInProgress := true } }
    match backupThrow with
    | some msg =>
      let sm2 : SyncMgr :=
        { sm1 with
          state := { sm1.state with syncInProgress := false, lastError := some msg } }
      { result := syncFail msg, sm := sm2, store := store, net := net1 }
    | none =>
      let sm2 : SyncMgr := { sm1 with backups := sm1.backups ++ [(profileId, "pre-shutdown")] }
      let _ := commitMessage profileId (toString now) worldHash
      match pushRes with
      | .err e =>
        let sm3 : SyncMgr := { sm2 with state := { sm2.state with syncInProgress := false } }
        { result := syncFail ("Failed to upload world: " ++ e),
          sm := sm3, store := store, net := net1 }
      | .ok hash files =>
        let rel := release sm2.lock store net1
        let sm3 : SyncMgr :=
          { sm2 with
            lock := rel.mgr,
            state :=
              { sm2.state with
                lastSyncTime := some now,
                lastCommitHash := hash,
                pendingChanges := false,
                syncInProgress := false,
                lastError := none } }
        match saveThrow with
        | some msg =>
          let sm4 : SyncMgr := { sm3 with state := { sm3.state with lastError := some msg } }
          { result := syncFail msg, sm := sm4, store := rel.store, net := rel.net }
        | none =>
          let sm4 := saveStateFile sm3
          { result := { success := true, error := none, commitHash := hash,
                        filesChanged := some files },
            sm := sm4, store := rel.store, net := rel.net }

/-! Trace model for mutual exclusion.  Each event is an acquire or release
by some holder against the shared store.  The store effect and the boolean
result of both operations depend only on the holder's identity and the
store, never on the holder's cached local state, so a trace is a fold of
store transformers. -/

/-- Identity of one independent holder. -/
structure Holder where
  machineId : String
  sessionId : String
  hostname : String
deriving DecidableEq, Repr

/-- A fresh `LockMgr` for a holder identity. -/
def mgrOf (h : Holder) : LockMgr :=
  { machineId := h.machineId, sessionId := h.sessionId, hostname := h.hostname
    currentLock := none, refreshOn := false }

/-- One call against the store (network healthy). -/
inductive Event
  | acq (h : Holder) (now : Int) (reason : String)
  | rel (h : Holder)
deriving DecidableEq, Repr

/-- Store effect of one event. -/
def stepStore (s : Store) : Event → Store
  | .acq h now reason => (acquire (mgrOf h) s now reason []).store
  | .rel h => (release (mgrOf h) s []).store

/-- Run a sequence of acquire/release calls against the store. -/
def runTrace (s : Store) (tr : List Event) : Store := tr.foldl stepStore s

/-- The boolean a holder observes from an acquire call at a given store. -/
def acqResult (s : Store) (h : Holder) (now : Int) (reason : String) : Bool :=
  (acquire (mgrOf h) s now reason []).result

/-! Embedding of `GitManager.getHistory` and `extractProfileId`
(src/sync/git.ts). -/

/-- One commit as simple-git reports it. -/
structure Commit where
  hash : String
  message : String
  date : Int
  authorName : String
deriving DecidableEq, Repr

/-- `WorldVersion` (types/index.ts). -/
structure WorldVersion where
  commitHash : String
  message : String
  timestamp : Int
  author : String
  size : Nat
  profileId : String
deriving DecidableEq, Repr

/-- The literal the extraction regex anchors on. -/
def profileMarker : List Char := ['[', 'p', 'r', 'o', 'f', 'i', 'l', 'e', ':']

/-- Try to match the regex at the head of the character list: the literal
marker, then one or more characters other than a closing bracket, then the
closing bracket; returns the captured group. -/
def matchMarkerAt (l : List Char) : Option (List Char) :=
  if l.take 9 = profileMarker then
    let rest := l.drop 9
    let body := rest.takeWhile (fun ch => ch ≠ ']')
    if body = [] then none
    else
      match rest.dropWhile (fun ch => ch ≠ ']') with
      | ']' :: _ => some body
      | _ => none
  else none

/-- Scan left to right for the first position where the regex matches,
exactly as `String.prototype.match` does for an unanchored pattern. -/
def scanMarker : List Char → Option (List Char)
  | [] => none
  | c :: rest =>
    match matchMarkerAt (c :: rest) with
    | some b => some b
    | none => scanMarker rest

/-- `GitManager.extractProfileId`: first regex match of
bracket-profile-colon-body-bracket, or the string unknown. -/
def extractProfileId (message : String) : String :=
  match scanMarker message.data with
  | some b => String.mk b
  | none => "unknown"

/-- `git log` limited to the newest `limit` commits; the underlying git
log lists commits newest first. -/
def gitLog (commits : List Commit) (limit : Nat) : List Commit :=
  commits.take limit

/-- `GitManager.getHistory`: map each of the newest `limit` commits to a
`WorldVersion` decorated with the extracted profile id. -/
def getHistory (commits : List Commit) (limit : Nat) : List WorldVersion :=
  (gitLog commits limit).map fun c =>
    { commitHash := c.hash, message := c.message, timestamp := c.date
      author := c.authorName, size := 0, profileId := extractProfileId c.message }

/-! Theorems. -/

/-- C1: mutual exclusion.  For every sequence of acquire/release calls by
independent holders against the single remote store, whenever the store
holds an unexpired lease record of holder A, an `acquire` call by any
holder B with a different machine id returns false and leaves the store
unchanged; hence at most one holder can observe `acquire = true` while an
unexpired lease of another holder is in place. -/
theorem acquire_mutual_exclusion (init : Store) (pre : List Event) (B : Holder)
    (now : Int) (r : String) (c : LockFileContent) (sha : Nat)
    (hobj : (runTrace init pre).obj = some { content := .valid c, sha := sha })
    (hlocked : c.locked = true)
    (hunexp : now ≤ c.expiresAt)
    (hne : c.machineId ≠ B.machineId) :
    acqResult (runTrace init pre) B now r = false ∧
    stepStore (runTrace init pre) (.acq B now r) = runTrace init pre := by
  generalize runTrace init pre = s at hobj ⊢
  have hnotexp : ¬ (c.expiresAt < now) := by omega
  constructor
  · simp [acqResult, acquire, getState, netStep, hobj, hlocked, hnotexp, mgrOf, hne]
  · simp [stepStore, acquire, getState, netStep, hobj, hlocked, hnotexp, mgrOf, hne]

/-- Concrete scenario for C1: holder A has an unexpired lease written at
time 0; holder B calls acquire at time 1000 and is refused, with the store
unchanged. -/
def holderA : Holder := { machineId := "mA", sessionId := "sA", hostname := "hostA" }

/-- The second holder in the concrete scenarios. -/
def holderB : Holder := { machineId := "mB", sessionId := "sB", hostname := "hostB" }

/-- Store with no lock object. -/
def emptyStore : Store := { obj := none, nextSha := 0 }

/-- Lease record written by holder A at time 0. -/
def recordA : LockFileContent :=
  { locked := true, lockedBy := "hostA", lockedAt := 0, machineId := "mA"
    reason := "Hosting server", expiresAt := 3600000, sessionId := "sA" }

/-- Store holding A's record. -/
def storeA : Store := { obj := some { content := .valid recordA, sha := 0 }, nextSha := 1 }

/-- Witness for C1 at a concrete trace. -/
theorem acquire_mutual_exclusion_witness :
    acqResult (runTrace storeA []) holderB 1000 "r" = false ∧
    stepStore (runTrace storeA []) (.acq holderB 1000 "r") = runTrace storeA [] :=
  acquire_mutual_exclusion storeA [] holderB 1000 "r" recordA 0 rfl rfl
    (by decide) (by decide)

/-- C6: acquire on an expired lease of a different holder treats the
record as orphaned, succeeds, and the resulting stored record identifies
the caller (its machineId is the caller's machine id). -/
theorem acquire_expired_takeover (mgr : LockMgr) (s : Store) (now : Int)
    (reason : String) (c : LockFileContent) (sha : Nat)
    (hobj : s.obj = some { content := .valid c, sha := sha })
    (hlocked : c.locked = true)
    (hexp : c.expiresAt < now)
    (hne : c.machineId ≠ mgr.machineId) :
    (acquire mgr s now reason []).result = true ∧
    (acquire mgr s now reason []).store.obj =
      some { content := .valid (newLockContent mgr now reason), sha := s.nextSha } ∧
    (newLockContent mgr now reason).machineId = mgr.machineId := by
  refine ⟨?_, ?_, rfl⟩ <;>
    simp [acquire, getState, netStep, hobj, hlocked, hexp, forceRelease,
      deleteLockFile, acquireCreate, writeLockFile, newLockContent]

/-- Witness for C6: holder B takes over A's lease one hour and one minute
after it was written. -/
theorem acquire_expired_takeover_witness :
    (acquire (mgrOf holderB) storeA 3660000 "r" []).result = true ∧
    (acquire (mgrOf holderB) storeA 3660000 "r" []).store.obj =
      some { content := .valid (newLockContent (mgrOf holderB) 3660000 "r")
             sha := storeA.nextSha } ∧
    (newLockContent (mgrOf holderB) 3660000 "r").machineId = (mgrOf holderB).machineId :=
  acquire_expired_takeover (mgrOf holderB) storeA 3660000 "r" recordA 0 rfl rfl
    (by decide) (by decide)

/-- C7: release postconditions.  With the record absent, release returns
true and leaves the store unchanged; with the record held by this machine,
release deletes it, stops the refresh timer, returns true, and a second
release straight after also returns true (idempotence); with the record
held by a different machine, release returns false and leaves the remote
record unchanged. -/
theorem release_postconditions (mgr : LockMgr) (s : Store) :
    (s.obj = none →
      (release mgr s []).result = true ∧ (release mgr s []).store = s) ∧
    (∀ c sha, s.obj = some { content := .valid c, sha := sha } → c.locked = true →
      c.machineId = mgr.machineId →
      (release mgr s []).result = true ∧
      (release mgr s []).store.obj = none ∧
      (release mgr s []).mgr.refreshOn = false ∧
      (release (release mgr s []).mgr (release mgr s []).store []).result = true) ∧
    (∀ c sha, s.obj = some { content := .valid c, sha := sha } → c.locked = true →
      c.machineId ≠ mgr.machineId →
      (release mgr s []).result = false ∧ (release mgr s []).store = s) := by
  refine ⟨fun hnone => ?_, fun c sha hobj hlocked hmine => ?_, fun c sha hobj hlocked hother => ?_⟩
  · constructor <;> simp [release, getState, netStep, hnone, unlockedState]
  · refine ⟨?_, ?_, ?_, ?_⟩ <;>
      simp [release, getState, netStep, hobj, hlocked, hmine, deleteLockFile, unlockedState]
  · constructor <;> simp [release, getState, netStep, hobj, hlocked, hother]

/-- Witness for C7: holder A releases its own lease, then releases again;
holder B cannot release A's lease. -/
theorem release_postconditions_witness :
    ((release (mgrOf holderA) storeA []).result = true ∧
      (release (mgrOf holderA) storeA []).store.obj = none ∧
      (release (mgrOf holderA) storeA []).mgr.refreshOn = false ∧
      (release (release (mgrOf holderA) storeA []).mgr
        (release (mgrOf holderA) storeA []).store []).result = true) ∧
    ((release (mgrOf holderB) storeA []).result = false ∧
      (release (mgrOf holderB) storeA []).store = storeA) :=
  ⟨(release_postconditions (mgrOf holderA) storeA).2.1 recordA 0 rfl rfl (by decide),
   (release_postconditions (mgrOf holderB) storeA).2.2 recordA 0 rfl rfl (by decide)⟩

/-- C8: refresh rewrites only the expiry.  If the stored record is still
held by this machine, refresh writes a record with the same machine id,
holder label, and acquisition time, and expiresAt equal to now plus the
lease duration, leaving the manager state untouched; if the record is
absent or held by another machine, refresh writes nothing, stops the
refresh loop, and leaves the store unchanged. -/
theorem refreshLock_spec (mgr : LockMgr) (s : Store) (now : Int) :
    (∀ c sha, s.obj = some { content := .valid c, sha := sha } → c.locked = true →
      c.machineId = mgr.machineId →
      refreshLock mgr s now [] =
        (mgr,
         { obj := some
             { content := .valid
                 { locked := true, lockedBy := c.lockedBy, lockedAt := c.lockedAt
                   machineId := c.machineId, reason := c.reason
                   expiresAt := now + LOCK_TIMEOUT, sessionId := mgr.sessionId }
               sha := s.nextSha }
           nextSha := s.nextSha + 1 }, [])) ∧
    (s.obj = none →
      refreshLock mgr s now [] = ({ mgr with refreshOn := false }, s, [])) ∧
    (∀ c sha, s.obj = some { content := .valid c, sha := sha } → c.locked = true →
      c.machineId ≠ mgr.machineId →
      refreshLock mgr s now [] = ({ mgr with refreshOn := false }, s, [])) := by
  refine ⟨fun c sha hobj hlocked hmine => ?_, fun hnone => ?_,
    fun c sha hobj hlocked hother => ?_⟩
  · simp [refreshLock, getState, netStep, hobj, hlocked, hmine, writeLockFile]
  · simp [refreshLock, getState, netStep, hnone, unlockedState]
  · simp [refreshLock, getState, netStep, hobj, hlocked, hother]

/-- Witness for C8: A refreshes its own lease at time 1000; B attempting a
refresh against A's lease stops its loop and writes nothing. -/
theorem refreshLock_spec_witness :
    refreshLock (mgrOf holderA) storeA 1000 [] =
      ((mgrOf holderA),
       { obj := some
           { content := .valid
               { locked := true, lockedBy := recordA.lockedBy, lockedAt := recordA.lockedAt
                 machineId := recordA.machineId, reason := recordA.reason
                 expiresAt := 1000 + LOCK_TIMEOUT, sessionId := (mgrOf holderA).sessionId }
             sha := storeA.nextSha }
         nextSha := storeA.nextSha + 1 }, []) ∧
    refreshLock (mgrOf holderB) storeA 1000 [] =
      ({ mgrOf holderB with refreshOn := false }, storeA, []) :=
  ⟨(refreshLock_spec (mgrOf holderA) storeA 1000).1 recordA 0 rfl rfl (by decide),
   (refreshLock_spec (mgrOf holderB) storeA 1000).2.2 recordA 0 rfl rfl (by decide)⟩

/-- A store currently holding a valid locked record of the given machine. -/
def heldBy (s : Store) (mid : String) : Prop :=
  ∃ c sha, s.obj = some { content := StoredContent.valid c, sha := sha } ∧
    c.locked = true ∧ c.machineId = mid

/-- A store is free for a machine when it does not hold a valid, locked,
unexpired record of a different machine. -/
def freeFor (s : Store) (now : Int) (mid : String) : Prop :=
  ∀ c sha, s.obj = some { content := StoredContent.valid c, sha := sha } →
    c.locked = true → now ≤ c.expiresAt → c.machineId = mid

/-- With a healthy network, `isAvailable` answers true on a store that is
free for this machine. -/
theorem isAvailable_freeFor (mgr : LockMgr) (s : Store) (now : Int)
    (hfree : freeFor s now mgr.machineId) :
    isAvailable mgr s now [] = (true, []) := by
  rcases hs : s.obj with _ | ⟨content, sha⟩
  · simp [isAvailable, getState, netStep, hs, unlockedState]
  · rcases content with c | raw
    · by_cases hl : c.locked = true
      · by_cases hex : c.expiresAt < now
        · simp [isAvailable, getState, netStep, hs, hl, hex]
        · have hmine := hfree c sha hs hl (by omega)
          simp [isAvailable, getState, netStep, hs, hl, hex, hmine]
      · simp only [Bool.not_eq_true] at hl
        simp [isAvailable, getState, netStep, hs, hl]
    · simp [isAvailable, getState, netStep, hs, unlockedState]

/-- With a healthy network, `acquire` on a store that is free for this
machine succeeds, leaves the store held by this machine, keeps the machine
id of the local manager, and consumes no pending oracle. -/
theorem acquire_freeFor (mgr : LockMgr) (s : Store) (now : Int) (r : String)
    (hfree : freeFor s now mgr.machineId) :
    (acquire mgr s now r []).result = true ∧
    heldBy (acquire mgr s now r []).store mgr.machineId ∧
    (acquire mgr s now r []).net = [] ∧
    (acquire mgr s now r []).mgr.machineId = mgr.machineId := by
  rcases hs : s.obj with _ | ⟨content, sha⟩
  · refine ⟨?_, ⟨newLockContent mgr now r, s.nextSha, ?_, rfl, rfl⟩, ?_, ?_⟩ <;>
      simp [acquire, getState, netStep, hs, unlockedState, acquireCreate,
        writeLockFile, newLockContent]
  · rcases content with c | raw
    · by_cases hl : c.locked = true
      · by_cases hex : c.expiresAt < now
        · refine ⟨?_, ⟨newLockContent mgr now r, s.nextSha, ?_, rfl, rfl⟩, ?_, ?_⟩ <;>
            simp [acquire, getState, netStep, hs, hl, hex, forceRelease, deleteLockFile,
              acquireCreate, writeLockFile, newLockContent]
        · have hmine := hfree c sha hs hl (by omega)
          refine ⟨?_, ⟨c, sha, ?_, hl, hmine⟩, ?_, ?_⟩ <;>
            simp [acquire, getState, netStep, hs, hl, hex, hmine]
      · simp only [Bool.not_eq_true] at hl
        refine ⟨?_, ⟨newLockContent mgr now r, s.nextSha, ?_, rfl, rfl⟩, ?_, ?_⟩ <;>
          simp [acquire, getState, netStep, hs, hl, acquireCreate,
            writeLockFile, newLockContent]
    · refine ⟨?_, ⟨newLockContent mgr now r, s.nextSha, ?_, rfl, rfl⟩, ?_, ?_⟩ <;>
        simp [acquire, getState, netStep, hs, unlockedState, acquireCreate,
          writeLockFile, newLockContent]

/-- With a healthy network, `release` on a store held by this machine
deletes the record, stops the refresh timer, and returns true. -/
theorem release_heldBy (mgr : LockMgr) (s : Store)
    (h : heldBy s mgr.machineId) :
    (release mgr s []).result = true ∧
    (release mgr s []).store.obj = none ∧
    (release mgr s []).mgr.refreshOn = false ∧
    (release mgr s []).net = [] := by
  obtain ⟨c, sha, hobj, hlocked, hmine⟩ := h
  refine ⟨?_, ?_, ?_, ?_⟩ <;>
    simp [release, getState, netStep, hobj, hlocked, hmine, deleteLockFile]

/-- C2: if the lease is acquired by `acquireAndSync` (the store was free
for this machine) and the subsequent pull fails, the just-acquired lease
is released before the call returns (the remote record is gone and the
refresh timer is stopped) and the call returns a failure result. -/
theorem acquireAndSync_pull_failure (sm : SyncMgr) (store : Store) (profileId : String)
    (now : Int) (e : String) (we io : Bool)
    (hfree : freeFor store now sm.lock.machineId) :
    (acquireAndSync sm store profileId now [] (.err e) we io none none).result.success
      = false ∧
    (acquireAndSync sm store profileId now [] (.err e) we io none none).result.error
      = some ("Failed to download world: " ++ e) ∧
    (acquireAndSync sm store profileId now [] (.err e) we io none none).store.obj
      = none ∧
    (acquireAndSync sm store profileId now [] (.err e) we io none
      none).sm.lock.refreshOn = false := by
  have hAvail := isAvailable_freeFor sm.lock store now hfree
  obtain ⟨hres, hheld, hnet, hmid⟩ :=
    acquire_freeFor sm.lock store now ("Hosting profile: " ++ profileId) hfree
  have hRel := release_heldBy
    (acquire sm.lock store now ("Hosting profile: " ++ profileId) []).mgr
    (acquire sm.lock store now ("Hosting profile: " ++ profileId) []).store
    (by rw [hmid]; exact hheld)
  refine ⟨?_, ?_, ?_, ?_⟩ <;>
    simp [acquireAndSync, hAvail, hres, hnet, hRel.1, hRel.2.1, hRel.2.2.1, syncFail]

/-- Witness for C2: a fresh empty store, pull fails, lease is gone after. -/
theorem acquireAndSync_pull_failure_witness :
    (acquireAndSync
      { lock := mgrOf holderA,
        state := { lastSyncTime := none, lastCommitHash := none, pendingChanges := false,
                   syncInProgress := false, lastError := none },
        profileId := none, backups := [], disk := none }
      emptyStore "p1" 0 [] (.err "net down") true true none none).result.success = false ∧
    (acquireAndSync
      { lock := mgrOf holderA,
        state := { lastSyncTime := none, lastCommitHash := none, pendingChanges := false,
                   syncInProgress := false, lastError := none },
        profileId := none, backups := [], disk := none }
      emptyStore "p1" 0 [] (.err "net down") true true none none).result.error
      = some ("Failed to download world: " ++ "net down") ∧
    (acquireAndSync
      { lock := mgrOf holderA,
        state := { lastSyncTime := none, lastCommitHash := none, pendingChanges := false,
                   syncInProgress := false, lastError := none },
        profileId := none, backups := [], disk := none }
      emptyStore "p1" 0 [] (.err "net down") true true none none).store.obj = none ∧
    (acquireAndSync
      { lock := mgrOf holderA,
        state := { lastSyncTime := none, lastCommitHash := none, pendingChanges := false,
                   syncInProgress := false, lastError := none },
        profileId := none, backups := [], disk := none }
      emptyStore "p1" 0 [] (.err "net down") true true none
      none).sm.lock.refreshOn = false :=
  acquireAndSync_pull_failure _ emptyStore "p1" 0 "net down" true true
    (by intro c sha h; simp [emptyStore] at h)

/-- `isLockHolder` answers true when the store is held by this machine and
the read succeeds. -/
theorem isLockHolder_heldBy (mgr : LockMgr) (s : Store) (net : List NetOutcome)
    (h : heldBy s mgr.machineId) (hnet : (netStep net).1 = .ok) :
    isLockHolder mgr s net = (true, (netStep net).2) := by
  obtain ⟨c, sha, hobj, hlocked, hmine⟩ := h
  simp [isLockHolder, getState, hnet, hobj, hlocked, hmine]

/-- `release` stops the refresh timer on every path (the timer is cleared
before the state is even read). -/
theorem release_refreshOn (mgr : LockMgr) (s : Store) (net : List NetOutcome) :
    (release mgr s net).mgr.refreshOn = false := by
  simp only [release]
  repeat' split
  all_goals rfl

/-- A fresh in-memory sync state. -/
def syncStateInit : SyncState :=
  { lastSyncTime := none, lastCommitHash := none, pendingChanges := false
    syncInProgress := false, lastError := none }

/-- Sync manager of holder A used in the concrete scenarios. -/
def syncMgrA : SyncMgr :=
  { lock := mgrOf holderA, state := syncStateInit, profileId := none
    backups := [], disk := none }

/-- C3: when the push fails inside `syncAndRelease`, the lease is not
released (the remote record is exactly as before the call), the
pre-shutdown backup has already been created, the sync state keeps its
previous last-sync time, commit hash and persisted file (no successful
sync is recorded), and the call returns a failure result. -/
theorem syncAndRelease_push_failure (sm : SyncMgr) (store : Store) (profileId : String)
    (now : Int) (e wh : String)
    (hheld : heldBy store sm.lock.machineId) :
    (syncAndRelease sm store profileId now [] none wh (.err e) none).result.success
      = false ∧
    (syncAndRelease sm store profileId now [] none wh (.err e) none).result.error
      = some ("Failed to upload world: " ++ e) ∧
    (syncAndRelease sm store profileId now [] none wh (.err e) none).store = store ∧
    (syncAndRelease sm store profileId now [] none wh (.err e) none).sm.backups
      = sm.backups ++ [(profileId, "pre-shutdown")] ∧
    (syncAndRelease sm store profileId now [] none wh
      (.err e) none).sm.state.lastSyncTime = sm.state.lastSyncTime ∧
    (syncAndRelease sm store profileId now [] none wh
      (.err e) none).sm.state.lastCommitHash = sm.state.lastCommitHash ∧
    (syncAndRelease sm store profileId now [] none wh (.err e) none).sm.disk
      = sm.disk := by
  have hH := isLockHolder_heldBy sm.lock store [] hheld rfl
  refine ⟨?_, ?_, ?_, ?_, ?_, ?_, ?_⟩ <;> simp [syncAndRelease, hH, netStep, syncFail]

/-- Witness for C3: holder A holds the lease, push fails; the record and
the recorded sync state survive untouched while a backup was made. -/
theorem syncAndRelease_push_failure_witness :
    (syncAndRelease syncMgrA storeA "p1" 50 [] none "wh" (.err "offline")
      none).result.success = false ∧
    (syncAndRelease syncMgrA storeA "p1" 50 [] none "wh" (.err "offline")
      none).result.error = some ("Failed to upload world: " ++ "offline") ∧
    (syncAndRelease syncMgrA storeA "p1" 50 [] none "wh" (.err "offline")
      none).store = storeA ∧
    (syncAndRelease syncMgrA storeA "p1" 50 [] none "wh" (.err "offline")
      none).sm.backups = syncMgrA.backups ++ [("p1", "pre-shutdown")] ∧
    (syncAndRelease syncMgrA storeA "p1" 50 [] none "wh" (.err "offline")
      none).sm.state.lastSyncTime = syncMgrA.state.lastSyncTime ∧
    (syncAndRelease syncMgrA storeA "p1" 50 [] none "wh" (.err "offline")
      none).sm.state.lastCommitHash = syncMgrA.state.lastCommitHash ∧
    (syncAndRelease syncMgrA storeA "p1" 50 [] none "wh" (.err "offline")
      none).sm.disk = syncMgrA.disk :=
  syncAndRelease_push_failure syncMgrA storeA "p1" 50 "offline" "wh"
    ⟨recordA, 0, rfl, rfl, rfl⟩

/-- C4 counterexample: push succeeds but the release fails (transient
network failure during the delete); `syncAndRelease` nevertheless returns
success, the remote record is still held, and the refresh timer has been
stopped -- refuting the claim that the caller sees a failure and that the
refresh loop keeps running. -/
theorem syncAndRelease_release_failure_counterexample :
    (syncAndRelease syncMgrA storeA "p1" 50 [.ok, .ok, .fail] none "wh"
      (.ok (some "c1") 2) none).result.success = true ∧
    (syncAndRelease syncMgrA storeA "p1" 50 [.ok, .ok, .fail] none "wh"
      (.ok (some "c1") 2) none).store.obj
      = some { content := .valid recordA, sha := 0 } ∧
    (syncAndRelease syncMgrA storeA "p1" 50 [.ok, .ok, .fail] none "wh"
      (.ok (some "c1") 2) none).sm.lock.refreshOn = false := by
  refine ⟨rfl, rfl, rfl⟩

/-- C4 amended: when the push succeeds, `syncAndRelease` ignores the
outcome of the release entirely -- whatever the network does from then on,
the caller-visible result is success, and the refresh timer has been
stopped by the release attempt rather than left running. -/
theorem syncAndRelease_ignores_release_result (sm : SyncMgr) (store : Store)
    (profileId : String) (now : Int) (wh : String) (hash : Option String)
    (files : Nat) (rest : List NetOutcome)
    (hheld : heldBy store sm.lock.machineId) :
    (syncAndRelease sm store profileId now (.ok :: rest) none wh (.ok hash files)
      none).result.success = true ∧
    (syncAndRelease sm store profileId now (.ok :: rest) none wh (.ok hash files)
      none).sm.lock.refreshOn = false := by
  have hH := isLockHolder_heldBy sm.lock store (.ok :: rest) hheld rfl
  constructor <;> simp [syncAndRelease, hH, netStep, release_refreshOn, saveStateFile]

/-- Witness for C4's amended statement, at the counterexample's inputs. -/
theorem syncAndRelease_ignores_release_result_witness :
    (syncAndRelease syncMgrA storeA "p1" 50 [.ok, .ok, .fail] none "wh"
      (.ok (some "c1") 2) none).result.success = true ∧
    (syncAndRelease syncMgrA storeA "p1" 50 [.ok, .ok, .fail] none "wh"
      (.ok (some "c1") 2) none).sm.lock.refreshOn = false :=
  syncAndRelease_ignores_release_result syncMgrA storeA "p1" 50 "wh" (some "c1") 2
    [.ok, .fail] ⟨recordA, 0, rfl, rfl, rfl⟩

/-- C5 counterexample: the Lock Coordinator does not retry transiently
failing remote calls.  With A's record in the store and an oracle whose
first outcome is a transient failure followed by successes, the state read
performs a single attempt and reports the unlocked state, leaving the
would-be-successful second outcome unconsumed; likewise a write whose GET
fails transiently goes straight on to the conditional PUT (which is then
rejected) instead of retrying the read. -/
theorem lock_remote_ops_not_retried :
    getState storeA [.fail, .ok] = (unlockedState, [.ok]) ∧
    writeLockFile storeA recordA [.fail, .ok, .ok] = (.ok false, storeA, [.ok]) :=
  ⟨rfl, rfl⟩

/-- C5 amended: remote reads and writes of the Lock Coordinator are
attempted exactly once.  A transient failure of the state read surfaces
immediately as the unlocked state; a transient failure of the conditional
PUT propagates immediately as an error (which `acquire` turns into
false); and a conditional-write rejection (the sha consulted does not
match the stored object) is reported as false without any retry.  Bounded
retries exist only in the Replication Manager's git operations. -/
theorem lock_remote_ops_single_attempt (s : Store) (c : LockFileContent)
    (rest : List NetOutcome) :
    getState s (.fail :: rest) = (unlockedState, rest) ∧
    writeLockFile s c (.ok :: .fail :: rest) = (.error "network", s, rest) ∧
    (∀ ob, s.obj = some ob →
      writeLockFile s c (.fail :: .ok :: rest) = (.ok false, s, rest)) := by
  refine ⟨rfl, ?_, fun ob hobj => ?_⟩
  · simp [writeLockFile, netStep]
  · simp [writeLockFile, netStep, hobj]

/-- Witness for C5's amended statement at A's store and record. -/
theorem lock_remote_ops_single_attempt_witness :
    getState storeA [NetOutcome.fail] = (unlockedState, []) ∧
    writeLockFile storeA recordA [.ok, .fail] = (.error "network", storeA, []) ∧
    writeLockFile storeA recordA [.fail, .ok] = (.ok false, storeA, []) :=
  ⟨(lock_remote_ops_single_attempt storeA recordA []).1,
   (lock_remote_ops_single_attempt storeA recordA []).2.1,
   (lock_remote_ops_single_attempt storeA recordA []).2.2
     { content := .valid recordA, sha := 0 } rfl⟩

/-- A store whose lock object holds unparseable bytes. -/
def storeGarbage : Store :=
  { obj := some { content := .garbage "not json", sha := 7 }, nextSha := 8 }

/-- C10: any failed remote read in `getState` -- transient network error or
non-2xx status (both rejected by axios) as well as unparseable stored
content -- is reported as the all-null unlocked state rather than as an
error, so `isAvailable` answers true and `isLockHolder` answers false
whenever the remote is unreachable, indistinguishable from lease absence. -/
theorem getState_error_masking (mgr : LockMgr) (s : Store) (now : Int)
    (rest : List NetOutcome) (raw : String) (sha : Nat) :
    getState s (.fail :: rest) = (unlockedState, rest) ∧
    (s.obj = some { content := .garbage raw, sha := sha } →
      getState s (.ok :: rest) = (unlockedState, rest)) ∧
    isAvailable mgr s now (.fail :: rest) = (true, rest) ∧
    isLockHolder mgr s (.fail :: rest) = (false, rest) := by
  refine ⟨rfl, fun hobj => ?_, ?_, ?_⟩
  · simp [getState, netStep, hobj]
  · simp [isAvailable, getState, netStep, unlockedState]
  · simp [isLockHolder, getState, netStep, unlockedState]

/-- Witness for C10 at the garbage store. -/
theorem getState_error_masking_witness :
    getState storeGarbage [NetOutcome.fail] = (unlockedState, []) ∧
    getState storeGarbage [NetOutcome.ok] = (unlockedState, []) ∧
    isAvailable (mgrOf holderA) storeGarbage 0 [NetOutcome.fail] = (true, []) ∧
    isLockHolder (mgrOf holderA) storeGarbage [NetOutcome.fail] = (false, []) :=
  ⟨(getState_error_masking (mgrOf holderA) storeGarbage 0 [] "not json" 7).1,
   (getState_error_masking (mgrOf holderA) storeGarbage 0 [] "not json" 7).2.1 rfl,
   (getState_error_masking (mgrOf holderA) storeGarbage 0 [] "not json" 7).2.2.1,
   (getState_error_masking (mgrOf holderA) storeGarbage 0 [] "not json" 7).2.2.2⟩

/-- takeWhile over a bracket-free block stops exactly at the closing
bracket. -/
theorem takeWhile_stops_at_bracket (k post : List Char)
    (hk : ∀ ch ∈ k, ch ≠ ']') :
    (k ++ ']' :: post).takeWhile (fun ch => ch ≠ ']') = k := by
  induction k with
  | nil =>
    rw [List.nil_append, List.takeWhile_cons_of_neg (by simp)]
  | cons a k ih =>
    have ha : a ≠ ']' := hk a (by simp)
    rw [List.cons_append, List.takeWhile_cons_of_pos (by simp [ha]),
      ih fun ch hch => hk ch (by simp [hch])]

/-- dropWhile over a bracket-free block lands on the closing bracket. -/
theorem dropWhile_stops_at_bracket (k post : List Char)
    (hk : ∀ ch ∈ k, ch ≠ ']') :
    (k ++ ']' :: post).dropWhile (fun ch => ch ≠ ']') = ']' :: post := by
  induction k with
  | nil =>
    rw [List.nil_append, List.dropWhile_cons_of_neg (by simp)]
  | cons a k ih =>
    have ha : a ≠ ']' := hk a (by simp)
    rw [List.cons_append, List.dropWhile_cons_of_pos (by simp [ha]),
      ih fun ch hch => hk ch (by simp [hch])]

/-- The regex matches at the head of marker-body-bracket and captures the
body. -/
theorem matchMarkerAt_marker (k post : List Char) (hk : k ≠ [])
    (hkc : ∀ ch ∈ k, ch ≠ ']') :
    matchMarkerAt (profileMarker ++ (k ++ ']' :: post)) = some k := by
  have hlen : profileMarker.length = 9 := rfl
  simp only [matchMarkerAt, List.take_left' hlen, List.drop_left' hlen, if_pos rfl,
    takeWhile_stops_at_bracket k post hkc, dropWhile_stops_at_bracket k post hkc]
  simp [hk]

/-- The regex cannot match at a position that does not start with an
opening bracket. -/
theorem matchMarkerAt_cons_of_ne (a : Char) (l : List Char) (ha : a ≠ '[') :
    matchMarkerAt (a :: l) = none := by
  have h9 : ¬ ((a :: l).take 9 = profileMarker) := by
    intro h
    rw [show (9 : Nat) = 8 + 1 from rfl, List.take_succ_cons] at h
    simp only [profileMarker] at h
    injection h with h1 _
    exact ha h1
  unfold matchMarkerAt
  rw [if_neg h9]

/-- Scanning skips a bracket-free prefix. -/
theorem scanMarker_skip (pre l : List Char) (hpre : ∀ a ∈ pre, a ≠ '[') :
    scanMarker (pre ++ l) = scanMarker l := by
  induction pre with
  | nil => rfl
  | cons a pre ih =>
    have ha : a ≠ '[' := hpre a (by simp)
    simp only [List.cons_append, scanMarker, matchMarkerAt_cons_of_ne a _ ha]
    exact ih fun x hx => hpre x (by simp [hx])

/-- The first regex match in prefix-marker-body-bracket-suffix captures
the embedded body when the prefix is bracket-free and the body is a
nonempty bracket-free block. -/
theorem scanMarker_marker (pre k post : List Char) (hpre : ∀ a ∈ pre, a ≠ '[')
    (hk : k ≠ []) (hkc : ∀ ch ∈ k, ch ≠ ']') :
    scanMarker (pre ++ (profileMarker ++ (k ++ ']' :: post))) = some k := by
  rw [scanMarker_skip pre _ hpre]
  have hmm := matchMarkerAt_marker k post hk hkc
  cases hp : profileMarker ++ (k ++ ']' :: post) with
  | nil => simp at hp
  | cons a rest => rw [hp] at hmm; simp [scanMarker, hmm]

/-- `extractProfileId` recovers the id embedded between the marker and its
closing bracket, for any message whose text before the marker contains no
opening bracket. -/
theorem extractProfileId_marker (pre k post : String)
    (hpre : ∀ a ∈ pre.data, a ≠ '[') (hk : k.data ≠ [])
    (hkc : ∀ ch ∈ k.data, ch ≠ ']') :
    extractProfileId (pre ++ "[profile:" ++ k ++ "]" ++ post) = k := by
  have hdata : (pre ++ "[profile:" ++ k ++ "]" ++ post).data =
      pre.data ++ (profileMarker ++ (k.data ++ ']' :: post.data)) := by
    simp [String.data_append, profileMarker]
  rw [extractProfileId, hdata, scanMarker_marker pre.data k.data post.data hpre hk hkc]

/-- C9: `getHistory limit` returns at most `limit` entries; when the
underlying log (newest first) has strictly descending commit dates the
returned entries have strictly descending timestamps; and every returned
entry whose commit message embeds a profile marker (with no stray opening
bracket before it and a nonempty bracket-free id) carries exactly that id
as its extracted profile id. -/
theorem getHistory_spec (commits : List Commit) (limit : Nat)
    (hsorted : commits.Pairwise (fun a b => b.date < a.date)) :
    (getHistory commits limit).length ≤ limit ∧
    (getHistory commits limit).Pairwise (fun a b => b.timestamp < a.timestamp) ∧
    (∀ v ∈ getHistory commits limit, ∀ pre k post : String,
      v.message = pre ++ "[profile:" ++ k ++ "]" ++ post →
      (∀ a ∈ pre.data, a ≠ '[') → k.data ≠ [] → (∀ ch ∈ k.data, ch ≠ ']') →
      v.profileId = k) := by
  refine ⟨?_, ?_, ?_⟩
  · simp [getHistory, gitLog]
  · exact List.pairwise_map.mpr ((hsorted.sublist (List.take_sublist limit commits)))
  · intro v hv pre k post hmsg hpre hk hkc
    simp only [getHistory, gitLog, List.mem_map] at hv
    obtain ⟨c, _, rfl⟩ := hv
    simp only at hmsg ⊢
    rw [hmsg] at *
    exact extractProfileId_marker pre k post hpre hk hkc

/-- The concrete history of the scenario: eight commits, newest first,
three of them tagged with profile alpha. -/
def commitsW : List Commit :=
  [ { hash := "h8", message := "[profile:alpha] World save - t8", date := 800, authorName := "A" },
    { hash := "h7", message := "[profile:beta] World save - t7", date := 700, authorName := "B" },
    { hash := "h6", message := "Initial commit - McServer setup", date := 600, authorName := "A" },
    { hash := "h5", message := "[profile:alpha] World save - t5", date := 500, authorName := "A" },
    { hash := "h4", message := "[profile:gamma] World save - t4", date := 400, authorName := "C" },
    { hash := "h3", message := "[profile:alpha] World save - t3", date := 300, authorName := "A" },
    { hash := "h2", message := "Lock: Hosting server", date := 200, authorName := "B" },
    { hash := "h1", message := "[profile:delta] World save - t1", date := 100, authorName := "D" } ]

/-- Witness for C9 at the eight-commit history with limit five. -/
theorem getHistory_spec_witness :
    (getHistory commitsW 5).length ≤ 5 ∧
    (getHistory commitsW 5).Pairwise (fun a b => b.timestamp < a.timestamp) ∧
    (∀ v ∈ getHistory commitsW 5, ∀ pre k post : String,
      v.message = pre ++ "[profile:" ++ k ++ "]" ++ post →
      (∀ a ∈ pre.data, a ≠ '[') → k.data ≠ [] → (∀ ch ∈ k.data, ch ≠ ']') →
      v.profileId = k) :=
  getHistory_spec commitsW 5 (by decide)

end McServer
